import Mathlib

/-!
Verification of the `rust-env-config` configuration-loading utility.

The development shallowly embeds the Rust sources:
  * `src/lib.rs`: `EnvConfigEnum`, `EnvVariables` (`get`, `get_raw`,
    `clone_into`), `load_env`;
  * `src/from_secrets/config.rs`: `SecretsConfigEnum`, `SecretValues`
    (`get`, `get_raw`, `clone_into`), `load_secrets`.

Rust's `HashMap<&'static str, String>` is modelled as an association list
with overwrite-on-insert semantics (`hmInsert` removes any previous binding
for the key, matching `HashMap::insert`); the only observations the code
makes on the map are `get` and `insert`, which this model reproduces.

External collaborators (the process environment, the AWS secrets call, the
serde JSON parse) are passed in as function parameters, exactly at the
granularity the code consumes them.
-/

namespace EnvConfigModel

/-- Model of `HashMap<&'static str, String>`: an association list whose
keys are unique (maintained by `hmInsert`). -/
abbrev HMap := List (String × String)

/-- `HashMap::get`: the value bound to `k`, if any. -/
def hmGet (m : HMap) (k : String) : Option String :=
  match m with
  | [] => none
  | (k', v) :: rest => if k' = k then some v else hmGet rest k

/-- `HashMap::insert`: bind `k` to `v`, replacing any previous binding. -/
def hmInsert (m : HMap) (k v : String) : HMap :=
  (k, v) :: m.filter (fun p => p.1 != k)

/-- The `GenericServerError` values this crate constructs, one constructor
per error type, carrying exactly the strings passed at each call site.
`CriticalError::with_debug`, `MissingEnvVariableError::with_debug`,
`InvalidEnvConfig::with_debug`, `FailedToFetchSecretsJson::with_debug`,
`SecretsInvalidJson::with_debug` and `InvalidSecretsConfig::with_debug`
take a debug context, a message and a debug-info string.
`MissingSecretKey::new` is invoked in `config.rs` with only the debug
context and one further string (the missing field name). -/
inductive GenericServerError where
  | CriticalError (dbg_cxt msg debug : String)
  | MissingEnvVariableError (dbg_cxt msg debug : String)
  | InvalidEnvConfig (dbg_cxt msg debug : String)
  | FailedToFetchSecretsJson (dbg_cxt msg debug : String)
  | SecretsInvalidJson (dbg_cxt msg debug : String)
  | MissingSecretKey (dbg_cxt arg : String)
  | InvalidSecretsConfig (dbg_cxt msg debug : String)
  deriving DecidableEq

/-- The error taxonomy of spec section 7: one tag per error type. -/
inductive ErrorKind where
  | critical
  | missingEnvVariable
  | invalidEnvConfig
  | failedToFetchSecretsJson
  | secretsInvalidJson
  | missingSecretKey
  | invalidSecretsConfig
  deriving DecidableEq

/-- The kind (Rust type) of an error value. -/
def GenericServerError.kind : GenericServerError → ErrorKind
  | .CriticalError _ _ _ => .critical
  | .MissingEnvVariableError _ _ _ => .missingEnvVariable
  | .InvalidEnvConfig _ _ _ => .invalidEnvConfig
  | .FailedToFetchSecretsJson _ _ _ => .failedToFetchSecretsJson
  | .SecretsInvalidJson _ _ _ => .secretsInvalidJson
  | .MissingSecretKey _ _ => .missingSecretKey
  | .InvalidSecretsConfig _ _ _ => .invalidSecretsConfig

/-- The strings an error value carries (its payload components). -/
def GenericServerError.strings : GenericServerError → List String
  | .CriticalError a b c => [a, b, c]
  | .MissingEnvVariableError a b c => [a, b, c]
  | .InvalidEnvConfig a b c => [a, b, c]
  | .FailedToFetchSecretsJson a b c => [a, b, c]
  | .SecretsInvalidJson a b c => [a, b, c]
  | .MissingSecretKey a b => [a, b]
  | .InvalidSecretsConfig a b c => [a, b, c]

/-- Trait `EnvConfigEnum` (lib.rs): a key-set over the enum type `K`,
with `as_str` (the fixed external name of a variant) and `value_list`
(every variant, in declaration order). -/
structure EnvConfigEnum (K : Type) where
  as_str : K → String
  value_list : List K

/-- Trait `SecretsConfigEnum` (from_secrets/config.rs): identical shape. -/
structure SecretsConfigEnum (K : Type) where
  as_str : K → String
  value_list : List K

/-- `EnvVariables<T>`: a `HashMap<&'static str, String>` tagged with the
key-set type (the `PhantomData` tag carries no data). -/
structure EnvVariables (K : Type) where
  map : HMap
  deriving DecidableEq

/-- `SecretValues<T>`: same shape as `EnvVariables<T>`. -/
structure SecretValues (K : Type) where
  map : HMap
  deriving DecidableEq

/-- The message `EnvVariables.get_raw` attaches to its `CriticalError`. -/
def envGetRawMsg : String :=
  "Should be guaranteed any ENV variable EnvConfig::key is present in EnvVariables<EnvConfig>, but it wasn't."

/-- The message `SecretValues.get_raw` attaches to its `CriticalError`. -/
def secGetRawMsg : String :=
  "Should be guaranteed any secret key SecretsConfig::key is present in SecretValues<SecretsConfig>, but it wasn't."

/-- `EnvVariables::get_raw`: look `key` up in the map; a miss is a
`CriticalError` carrying the key. -/
def EnvVariables.get_raw {K : Type} (self : EnvVariables K) (key : String) :
    Except GenericServerError String :=
  match hmGet self.map key with
  | some v => .ok v
  | none => .error (.CriticalError "EnvVariables.get_raw" envGetRawMsg key)

/-- `EnvVariables::get`: `get_raw` at the key's external name. -/
def EnvVariables.get {K : Type} (C : EnvConfigEnum K) (self : EnvVariables K)
    (key : K) : Except GenericServerError String :=
  self.get_raw (C.as_str key)

/-- `SecretValues::get_raw`. -/
def SecretValues.get_raw {K : Type} (self : SecretValues K) (key : String) :
    Except GenericServerError String :=
  match hmGet self.map key with
  | some v => .ok v
  | none => .error (.CriticalError "SecretValues.get_raw" secGetRawMsg key)

/-- `SecretValues::get`. -/
def SecretValues.get {K : Type} (C : SecretsConfigEnum K) (self : SecretValues K)
    (key : K) : Except GenericServerError String :=
  self.get_raw (C.as_str key)

/-- The `for field in T::value_list()` loop of `load_env` (lib.rs):
`env` models `std::env::var` (`none` = absent). -/
def loadEnvLoop {K : Type} (C : EnvConfigEnum K) (env : String → Option String) :
    List K → HMap → Except GenericServerError HMap
  | [], map => .ok map
  | field :: rest, map =>
    match env (C.as_str field) with
    | none =>
      .error (.MissingEnvVariableError "load_config" "" (C.as_str field))
    | some value =>
      loadEnvLoop C env rest (hmInsert map (C.as_str field) value)

/-- `load_env::<T>()` (lib.rs): fetch every key of the key-set from the
environment, all-or-nothing. -/
def load_env {K : Type} (C : EnvConfigEnum K) (env : String → Option String) :
    Except GenericServerError (EnvVariables K) :=
  (loadEnvLoop C env C.value_list []).map EnvVariables.mk

/-- The `for value in ChildConfig::value_list()` loop of
`EnvVariables::clone_into` (lib.rs): each `get_raw` miss is mapped to
`InvalidEnvConfig`. -/
def cloneIntoEnvLoop {K₁ K₂ : Type} (CC : EnvConfigEnum K₂)
    (self : EnvVariables K₁) :
    List K₂ → HMap → Except GenericServerError HMap
  | [], map => .ok map
  | value :: rest, map =>
    match self.get_raw (CC.as_str value) with
    | .error _ =>
      .error (.InvalidEnvConfig "EnvVariables::clone_into" "ENV variable missing"
        (CC.as_str value))
    | .ok env_value =>
      cloneIntoEnvLoop CC self rest (hmInsert map (CC.as_str value) env_value)

/-- `EnvVariables::clone_into::<ChildConfig>` (lib.rs). -/
def EnvVariables.clone_into {K₁ K₂ : Type} (self : EnvVariables K₁)
    (CC : EnvConfigEnum K₂) : Except GenericServerError (EnvVariables K₂) :=
  (cloneIntoEnvLoop CC self CC.value_list []).map EnvVariables.mk

/-- The loop of `SecretValues::clone_into` (from_secrets/config.rs): each
`get_raw` miss is mapped to `InvalidSecretsConfig`. -/
def cloneIntoSecLoop {K₁ K₂ : Type} (CC : SecretsConfigEnum K₂)
    (self : SecretValues K₁) :
    List K₂ → HMap → Except GenericServerError HMap
  | [], map => .ok map
  | value :: rest, map =>
    match self.get_raw (CC.as_str value) with
    | .error _ =>
      .error (.InvalidSecretsConfig "SecretValues::clone_into" "Secret key missing"
        (CC.as_str value))
    | .ok secret_value =>
      cloneIntoSecLoop CC self rest (hmInsert map (CC.as_str value) secret_value)

/-- `SecretValues::clone_into::<ChildConfig>` (from_secrets/config.rs). -/
def SecretValues.clone_into {K₁ K₂ : Type} (self : SecretValues K₁)
    (CC : SecretsConfigEnum K₂) : Except GenericServerError (SecretValues K₂) :=
  (cloneIntoSecLoop CC self CC.value_list []).map SecretValues.mk

/-- The enum expanded from
`define_env_config!(SecretsEnvConfig, SecretsRegion => SECRETS_REGION, SecretsId => SECRETS_ID)`
in from_secrets/config.rs. -/
inductive SecretsEnvConfigKey where
  | SecretsRegion
  | SecretsId
  deriving DecidableEq

/-- The `SECRETS_REGION` static. It is declared at the crate root with
`define_env_variable!(SECRETS_REGION)`, whose expansion (macros.rs) is
`pub static SECRETS_REGION: &str = stringify!(SECRETS_REGION)`, i.e. the
identifier's own spelling. -/
def SECRETS_REGION : String := "SECRETS_REGION"

/-- The `SECRETS_ID` static, by the same macro expansion. -/
def SECRETS_ID : String := "SECRETS_ID"

/-- The `EnvConfigEnum` impl generated by `define_env_config!` for
`SecretsEnvConfig`: declaration-order `value_list`, name per variant. -/
def secretsEnvConfig : EnvConfigEnum SecretsEnvConfigKey where
  as_str := fun k =>
    match k with
    | .SecretsRegion => SECRETS_REGION
    | .SecretsId => SECRETS_ID
  value_list := [.SecretsRegion, .SecretsId]

/-- Outcome of the AWS `get_secret_value().send()` call followed by
`secret_string()` — the opaque remote collaborator of spec section 6. -/
inductive SecretsFetchOutcome where
  | sendError (e : String)
  | noSecretString
  | secretString (s : String)

/-- The `for field in T::value_list()` loop of `load_secrets`
(from_secrets/config.rs lines 112-123): each key's external name is looked
up in the parsed JSON map; a miss is `MissingSecretKey::new(dbg_ctx,
field.as_str())`. -/
def loadSecretsLoop {K : Type} (C : SecretsConfigEnum K) (secrets_json : HMap) :
    List K → HMap → Except GenericServerError HMap
  | [], map => .ok map
  | field :: rest, map =>
    match hmGet secrets_json (C.as_str field) with
    | none => .error (.MissingSecretKey "load_secrets" (C.as_str field))
    | some secret_value =>
      loadSecretsLoop C secrets_json rest (hmInsert map (C.as_str field) secret_value)

/-- `load_secrets::<T>` (from_secrets/config.rs): resolve region then
secret id from the supplied `EnvVariables<SecretsEnvConfig>` (each via
`get`, whose error propagates through `?` unchanged), perform the remote
fetch (`fetch`, a function of secret id and region), parse the payload
(`parse`, modelling `serde_json::from_str::<HashMap<String, String>>`),
then run the key loop. -/
def load_secrets {K : Type} (C : SecretsConfigEnum K)
    (env : EnvVariables SecretsEnvConfigKey)
    (fetch : String → String → SecretsFetchOutcome)
    (parse : String → Except String HMap) :
    Except GenericServerError (SecretValues K) :=
  match EnvVariables.get secretsEnvConfig env SecretsEnvConfigKey.SecretsRegion with
  | .error e => .error e
  | .ok region_str =>
    match EnvVariables.get secretsEnvConfig env SecretsEnvConfigKey.SecretsId with
    | .error e => .error e
    | .ok secrets_id =>
      match fetch secrets_id region_str with
      | .sendError err =>
        .error (.FailedToFetchSecretsJson "load_secrets" ""
          ("SecretsId: " ++ secrets_id ++ "; Region: " ++ region_str ++
           "; Error: " ++ err ++ ";"))
      | .noSecretString =>
        .error (.CriticalError "load_secrets" "could not parse secret value"
          ("SecretsId: " ++ secrets_id ++ "; Region: " ++ region_str ++ ";"))
      | .secretString secrets_string =>
        match parse secrets_string with
        | .error e =>
          .error (.SecretsInvalidJson "load_secrets" ""
            ("SecretsId: " ++ secrets_id ++ "; Region: " ++ region_str ++
             "; Error: " ++ e ++ ";"))
        | .ok secrets_json =>
          (loadSecretsLoop C secrets_json C.value_list []).map SecretValues.mk

/-!
All four loops (`loadEnvLoop`, `cloneIntoEnvLoop`, `cloneIntoSecLoop`,
`loadSecretsLoop`) share one shape: walk a key list, look each key's
external name up in a source, abort with an error built from the name on
the first miss, otherwise insert the found value. `fillLoop` is that
common shape; each concrete loop is proved equal to an instance of it.
-/

/-- The common loop shape. -/
def fillLoop {K : Type} (nm : K → String) (src : String → Option String)
    (mkErr : String → GenericServerError) :
    List K → HMap → Except GenericServerError HMap
  | [], map => .ok map
  | f :: rest, map =>
    match src (nm f) with
    | none => .error (mkErr (nm f))
    | some v => fillLoop nm src mkErr rest (hmInsert map (nm f) v)

theorem loadEnvLoop_eq_fillLoop {K : Type} (C : EnvConfigEnum K)
    (env : String → Option String) (l : List K) (m : HMap) :
    loadEnvLoop C env l m =
      fillLoop C.as_str env
        (fun n => .MissingEnvVariableError "load_config" "" n) l m := by
  induction l generalizing m with
  | nil => rfl
  | cons f rest ih =>
    simp only [loadEnvLoop, fillLoop]
    cases env (C.as_str f) <;> simp [ih]

theorem cloneIntoEnvLoop_eq_fillLoop {K₁ K₂ : Type} (CC : EnvConfigEnum K₂)
    (self : EnvVariables K₁) (l : List K₂) (m : HMap) :
    cloneIntoEnvLoop CC self l m =
      fillLoop CC.as_str (fun n => hmGet self.map n)
        (fun n => .InvalidEnvConfig "EnvVariables::clone_into" "ENV variable missing" n)
        l m := by
  induction l generalizing m with
  | nil => rfl
  | cons f rest ih =>
    simp only [cloneIntoEnvLoop, fillLoop, EnvVariables.get_raw]
    cases hmGet self.map (CC.as_str f) <;> simp [ih]

theorem cloneIntoSecLoop_eq_fillLoop {K₁ K₂ : Type} (CC : SecretsConfigEnum K₂)
    (self : SecretValues K₁) (l : List K₂) (m : HMap) :
    cloneIntoSecLoop CC self l m =
      fillLoop CC.as_str (fun n => hmGet self.map n)
        (fun n => .InvalidSecretsConfig "SecretValues::clone_into" "Secret key missing" n)
        l m := by
  induction l generalizing m with
  | nil => rfl
  | cons f rest ih =>
    simp only [cloneIntoSecLoop, fillLoop, SecretValues.get_raw]
    cases hmGet self.map (CC.as_str f) <;> simp [ih]

theorem loadSecretsLoop_eq_fillLoop {K : Type} (C : SecretsConfigEnum K)
    (secrets_json : HMap) (l : List K) (m : HMap) :
    loadSecretsLoop C secrets_json l m =
      fillLoop C.as_str (fun n => hmGet secrets_json n)
        (fun n => .MissingSecretKey "load_secrets" n) l m := by
  induction l generalizing m with
  | nil => rfl
  | cons f rest ih =>
    simp only [loadSecretsLoop, fillLoop]
    cases hmGet secrets_json (C.as_str f) <;> simp [ih]

theorem hmGet_filter_ne (m : HMap) (k k' : String) (h : k ≠ k') :
    hmGet (m.filter (fun p => p.1 != k)) k' = hmGet m k' := by
  induction m with
  | nil => rfl
  | cons p rest ih =>
    obtain ⟨a, b⟩ := p
    by_cases ha : a = k
    · subst ha
      simp only [List.filter, bne_self_eq_false]
      rw [hmGet]
      rw [if_neg h, ih]
    · have : (a != k) = true := bne_iff_ne.mpr ha
      simp only [List.filter, this]
      rw [hmGet, hmGet]
      by_cases ha' : a = k'
      · simp [ha']
      · rw [if_neg ha', if_neg ha', ih]

theorem hmGet_insert (m : HMap) (k v k' : String) :
    hmGet (hmInsert m k v) k' = if k = k' then some v else hmGet m k' := by
  simp only [hmInsert, hmGet]
  by_cases h : k = k'
  · simp [h]
  · rw [if_neg h, if_neg h, hmGet_filter_ne m k k' h]

theorem fillLoop_ok_get {K : Type} (nm : K → String) (src : String → Option String)
    (mkErr : String → GenericServerError) (l : List K) (m m' : HMap)
    (h : fillLoop nm src mkErr l m = .ok m') (k : String) :
    hmGet m' k = if k ∈ l.map nm then src k else hmGet m k := by
  induction l generalizing m with
  | nil =>
    simp only [fillLoop, Except.ok.injEq] at h
    subst h
    simp
  | cons f rest ih =>
    simp only [fillLoop] at h
    cases hsrc : src (nm f) with
    | none => rw [hsrc] at h; cases h
    | some v =>
      rw [hsrc] at h
      rw [ih _ h]
      by_cases hk : k ∈ rest.map nm
      · simp [hk]
      · by_cases hkf : nm f = k
        · subst hkf
          simp [hk, hmGet_insert, hsrc]
        · simp [hk, hmGet_insert, hkf, Ne.symm hkf]

theorem fillLoop_isOk_iff {K : Type} (nm : K → String) (src : String → Option String)
    (mkErr : String → GenericServerError) (l : List K) (m : HMap) :
    (∃ m', fillLoop nm src mkErr l m = .ok m') ↔
      ∀ f ∈ l, (src (nm f)).isSome := by
  induction l generalizing m with
  | nil => simp [fillLoop]
  | cons f rest ih =>
    simp only [fillLoop]
    cases hsrc : src (nm f) with
    | none =>
      constructor
      · rintro ⟨m', hm'⟩; cases hm'
      · intro hall
        have := hall f (List.mem_cons_self f rest)
        rw [hsrc] at this
        cases this
    | some v =>
      rw [ih]
      constructor
      · intro hall g hg
        rcases List.mem_cons.mp hg with hgf | hgr
        · subst hgf; rw [hsrc]; rfl
        · exact hall g hgr
      · intro hall g hg
        exact hall g (List.mem_cons.mpr (Or.inr hg))

theorem fillLoop_find_error {K : Type} (nm : K → String) (src : String → Option String)
    (mkErr : String → GenericServerError) (l : List K) (f₀ : K)
    (h : l.find? (fun f => (src (nm f)).isNone) = some f₀) (m : HMap) :
    fillLoop nm src mkErr l m = .error (mkErr (nm f₀)) := by
  induction l generalizing m with
  | nil => cases h
  | cons f rest ih =>
    simp only [List.find?] at h
    cases hsrc : src (nm f) with
    | none =>
      rw [hsrc] at h
      simp only [Option.isNone_none] at h
      cases h
      simp [fillLoop, hsrc]
    | some v =>
      rw [hsrc] at h
      simp only [Option.isNone_some] at h
      simp only [fillLoop, hsrc]
      exact ih h _

theorem fillLoop_error {K : Type} (nm : K → String) (src : String → Option String)
    (mkErr : String → GenericServerError) (l : List K) (m : HMap)
    (err : GenericServerError) (h : fillLoop nm src mkErr l m = .error err) :
    ∃ f, f ∈ l ∧ src (nm f) = none ∧ err = mkErr (nm f) := by
  induction l generalizing m with
  | nil => cases h
  | cons f rest ih =>
    simp only [fillLoop] at h
    cases hsrc : src (nm f) with
    | none =>
      rw [hsrc] at h
      refine ⟨f, List.mem_cons_self f rest, hsrc, ?_⟩
      cases h
      rfl
    | some v =>
      rw [hsrc] at h
      obtain ⟨g, hg, h1, h2⟩ := ih _ h
      exact ⟨g, List.mem_cons.mpr (Or.inr hg), h1, h2⟩

theorem except_map_ok {α β γ : Type} (f : α → β) (x : Except γ α) (b : β)
    (h : x.map f = .ok b) : ∃ a, x = .ok a ∧ b = f a := by
  cases x with
  | error e => cases h
  | ok a => exact ⟨a, rfl, by cases h; rfl⟩

theorem except_map_error {α β γ : Type} (f : α → β) (x : Except γ α)
    (e : γ) : x.map f = .error e ↔ x = .error e := by
  cases x <;> simp [Except.map]

/-- The external-name list of a key-set, in declaration order. -/
def EnvConfigEnum.names {K : Type} (C : EnvConfigEnum K) : List String :=
  C.value_list.map C.as_str

/-- The external-name list of a secrets key-set, in declaration order. -/
def SecretsConfigEnum.names {K : Type} (C : SecretsConfigEnum K) : List String :=
  C.value_list.map C.as_str

theorem load_env_ok_get {K : Type} (C : EnvConfigEnum K)
    (env : String → Option String) (c : EnvVariables K)
    (h : load_env C env = .ok c) (k : String) :
    hmGet c.map k = if k ∈ C.names then env k else none := by
  obtain ⟨m', hm', hc⟩ := except_map_ok _ _ _ h
  rw [loadEnvLoop_eq_fillLoop] at hm'
  subst hc
  exact fillLoop_ok_get _ _ _ _ _ _ hm' k

theorem load_env_ok_iff {K : Type} (C : EnvConfigEnum K)
    (env : String → Option String) :
    (∃ c, load_env C env = .ok c) ↔
      ∀ k ∈ C.value_list, (env (C.as_str k)).isSome := by
  rw [← fillLoop_isOk_iff C.as_str env
    (fun n => .MissingEnvVariableError "load_config" "" n) C.value_list []]
  constructor
  · rintro ⟨c, hc⟩
    obtain ⟨m', hm', _⟩ := except_map_ok _ _ _ hc
    exact ⟨m', by rw [← loadEnvLoop_eq_fillLoop]; exact hm'⟩
  · rintro ⟨m', hm'⟩
    refine ⟨⟨m'⟩, ?_⟩
    unfold load_env
    rw [loadEnvLoop_eq_fillLoop, hm']
    rfl

theorem load_env_find_error {K : Type} (C : EnvConfigEnum K)
    (env : String → Option String) (f₀ : K)
    (h : C.value_list.find? (fun k => (env (C.as_str k)).isNone) = some f₀) :
    load_env C env =
      .error (.MissingEnvVariableError "load_config" "" (C.as_str f₀)) := by
  unfold load_env
  rw [loadEnvLoop_eq_fillLoop,
    fillLoop_find_error C.as_str env _ C.value_list f₀ h []]
  rfl

theorem load_env_error_shape {K : Type} (C : EnvConfigEnum K)
    (env : String → Option String) (err : GenericServerError)
    (h : load_env C env = .error err) :
    ∃ f, f ∈ C.value_list ∧ env (C.as_str f) = none ∧
      err = .MissingEnvVariableError "load_config" "" (C.as_str f) := by
  unfold load_env at h
  rw [except_map_error] at h
  rw [loadEnvLoop_eq_fillLoop] at h
  exact fillLoop_error _ _ _ _ _ _ h

theorem clone_into_env_ok_get {K₁ K₂ : Type} (CC : EnvConfigEnum K₂)
    (wide : EnvVariables K₁) (c : EnvVariables K₂)
    (h : wide.clone_into CC = .ok c) (k : String) :
    hmGet c.map k = if k ∈ CC.names then hmGet wide.map k else none := by
  obtain ⟨m', hm', hc⟩ := except_map_ok _ _ _ h
  rw [cloneIntoEnvLoop_eq_fillLoop] at hm'
  subst hc
  exact fillLoop_ok_get _ _ _ _ _ _ hm' k

theorem clone_into_env_ok_iff {K₁ K₂ : Type} (CC : EnvConfigEnum K₂)
    (wide : EnvVariables K₁) :
    (∃ c, wide.clone_into CC = .ok c) ↔
      ∀ k ∈ CC.value_list, (hmGet wide.map (CC.as_str k)).isSome := by
  rw [← fillLoop_isOk_iff CC.as_str (fun n => hmGet wide.map n)
    (fun n => .InvalidEnvConfig "EnvVariables::clone_into" "ENV variable missing" n)
    CC.value_list []]
  constructor
  · rintro ⟨c, hc⟩
    obtain ⟨m', hm', _⟩ := except_map_ok _ _ _ hc
    exact ⟨m', by rw [← cloneIntoEnvLoop_eq_fillLoop]; exact hm'⟩
  · rintro ⟨m', hm'⟩
    refine ⟨⟨m'⟩, ?_⟩
    unfold EnvVariables.clone_into
    rw [cloneIntoEnvLoop_eq_fillLoop, hm']
    rfl

theorem clone_into_env_find_error {K₁ K₂ : Type} (CC : EnvConfigEnum K₂)
    (wide : EnvVariables K₁) (f₀ : K₂)
    (h : CC.value_list.find?
      (fun k => (hmGet wide.map (CC.as_str k)).isNone) = some f₀) :
    wide.clone_into CC =
      .error (.InvalidEnvConfig "EnvVariables::clone_into" "ENV variable missing"
        (CC.as_str f₀)) := by
  unfold EnvVariables.clone_into
  rw [cloneIntoEnvLoop_eq_fillLoop,
    fillLoop_find_error CC.as_str _ _ CC.value_list f₀ h []]
  rfl

theorem clone_into_env_error_shape {K₁ K₂ : Type} (CC : EnvConfigEnum K₂)
    (wide : EnvVariables K₁) (err : GenericServerError)
    (h : wide.clone_into CC = .error err) :
    ∃ f, f ∈ CC.value_list ∧ hmGet wide.map (CC.as_str f) = none ∧
      err = .InvalidEnvConfig "EnvVariables::clone_into" "ENV variable missing"
        (CC.as_str f) := by
  unfold EnvVariables.clone_into at h
  rw [except_map_error] at h
  rw [cloneIntoEnvLoop_eq_fillLoop] at h
  exact fillLoop_error _ _ _ _ _ _ h

theorem clone_into_sec_ok_get {K₁ K₂ : Type} (CC : SecretsConfigEnum K₂)
    (wide : SecretValues K₁) (c : SecretValues K₂)
    (h : wide.clone_into CC = .ok c) (k : String) :
    hmGet c.map k = if k ∈ CC.names then hmGet wide.map k else none := by
  obtain ⟨m', hm', hc⟩ := except_map_ok _ _ _ h
  rw [cloneIntoSecLoop_eq_fillLoop] at hm'
  subst hc
  exact fillLoop_ok_get _ _ _ _ _ _ hm' k

theorem clone_into_sec_ok_iff {K₁ K₂ : Type} (CC : SecretsConfigEnum K₂)
    (wide : SecretValues K₁) :
    (∃ c, wide.clone_into CC = .ok c) ↔
      ∀ k ∈ CC.value_list, (hmGet wide.map (CC.as_str k)).isSome := by
  rw [← fillLoop_isOk_iff CC.as_str (fun n => hmGet wide.map n)
    (fun n => .InvalidSecretsConfig "SecretValues::clone_into" "Secret key missing" n)
    CC.value_list []]
  constructor
  · rintro ⟨c, hc⟩
    obtain ⟨m', hm', _⟩ := except_map_ok _ _ _ hc
    exact ⟨m', by rw [← cloneIntoSecLoop_eq_fillLoop]; exact hm'⟩
  · rintro ⟨m', hm'⟩
    refine ⟨⟨m'⟩, ?_⟩
    unfold SecretValues.clone_into
    rw [cloneIntoSecLoop_eq_fillLoop, hm']
    rfl

theorem clone_into_sec_find_error {K₁ K₂ : Type} (CC : SecretsConfigEnum K₂)
    (wide : SecretValues K₁) (f₀ : K₂)
    (h : CC.value_list.find?
      (fun k => (hmGet wide.map (CC.as_str k)).isNone) = some f₀) :
    wide.clone_into CC =
      .error (.InvalidSecretsConfig "SecretValues::clone_into" "Secret key missing"
        (CC.as_str f₀)) := by
  unfold SecretValues.clone_into
  rw [cloneIntoSecLoop_eq_fillLoop,
    fillLoop_find_error CC.as_str _ _ CC.value_list f₀ h []]
  rfl

theorem load_secrets_ok_inv {K : Type} (C : SecretsConfigEnum K)
    (env : EnvVariables SecretsEnvConfigKey)
    (fetch : String → String → SecretsFetchOutcome)
    (parse : String → Except String HMap) (c : SecretValues K)
    (h : load_secrets C env fetch parse = .ok c) :
    ∃ secrets_json m',
      loadSecretsLoop C secrets_json C.value_list [] = .ok m' ∧ c = ⟨m'⟩ := by
  unfold load_secrets at h
  split at h
  · cases h
  · split at h
    · cases h
    · split at h
      · cases h
      · cases h
      · split at h
        · cases h
        · obtain ⟨m', hm', hc⟩ := except_map_ok _ _ _ h
          exact ⟨_, m', hm', by rw [hc]⟩

theorem env_get_region_missing (env : EnvVariables SecretsEnvConfigKey)
    (h : hmGet env.map SECRETS_REGION = none) :
    EnvVariables.get secretsEnvConfig env SecretsEnvConfigKey.SecretsRegion =
      .error (.CriticalError "EnvVariables.get_raw" envGetRawMsg SECRETS_REGION) := by
  unfold EnvVariables.get EnvVariables.get_raw
  have : secretsEnvConfig.as_str SecretsEnvConfigKey.SecretsRegion = SECRETS_REGION := rfl
  rw [this, h]

theorem env_get_id_missing (env : EnvVariables SecretsEnvConfigKey)
    (h : hmGet env.map SECRETS_ID = none) :
    EnvVariables.get secretsEnvConfig env SecretsEnvConfigKey.SecretsId =
      .error (.CriticalError "EnvVariables.get_raw" envGetRawMsg SECRETS_ID) := by
  unfold EnvVariables.get EnvVariables.get_raw
  have : secretsEnvConfig.as_str SecretsEnvConfigKey.SecretsId = SECRETS_ID := rfl
  rw [this, h]

theorem load_secrets_region_missing {K : Type} (C : SecretsConfigEnum K)
    (env : EnvVariables SecretsEnvConfigKey)
    (fetch : String → String → SecretsFetchOutcome)
    (parse : String → Except String HMap)
    (h : hmGet env.map SECRETS_REGION = none) :
    load_secrets C env fetch parse =
      .error (.CriticalError "EnvVariables.get_raw" envGetRawMsg SECRETS_REGION) := by
  unfold load_secrets
  rw [env_get_region_missing env h]

theorem load_secrets_id_missing {K : Type} (C : SecretsConfigEnum K)
    (env : EnvVariables SecretsEnvConfigKey)
    (fetch : String → String → SecretsFetchOutcome)
    (parse : String → Except String HMap) (r : String)
    (hr : hmGet env.map SECRETS_REGION = some r)
    (h : hmGet env.map SECRETS_ID = none) :
    load_secrets C env fetch parse =
      .error (.CriticalError "EnvVariables.get_raw" envGetRawMsg SECRETS_ID) := by
  unfold load_secrets
  have h1 : EnvVariables.get secretsEnvConfig env SecretsEnvConfigKey.SecretsRegion = .ok r := by
    unfold EnvVariables.get EnvVariables.get_raw
    have : secretsEnvConfig.as_str SecretsEnvConfigKey.SecretsRegion = SECRETS_REGION := rfl
    rw [this, hr]
  rw [h1, env_get_id_missing env h]

/-!
Concrete fixtures, mirroring the key-sets and inputs of the crate's own
tests (`AllVariablesConfig`-style wide sets, one-key narrow sets, an empty
set, and secrets-scenario inputs).
-/

/-- Keys of the two-key test key-set `{A -> "X", B -> "Y"}`. -/
inductive TestKey where
  | A
  | B
  deriving DecidableEq

/-- Test key-set `{A -> "X", B -> "Y"}` (declaration order `[A, B]`). -/
def testConfig : EnvConfigEnum TestKey where
  as_str := fun k => match k with | .A => "X" | .B => "Y"
  value_list := [.A, .B]

/-- One-key narrow key-set `{() -> "X"}`. -/
def testNarrow : EnvConfigEnum Unit where
  as_str := fun _ => "X"
  value_list := [()]

/-- The empty key-set (an enum with no variants). -/
def emptyConfig : EnvConfigEnum Empty where
  as_str := fun k => k.elim
  value_list := []

/-- An environment holding `X=1` and `Y=2`. -/
def testEnvFull : String → Option String :=
  fun n => if n = "X" then some "1" else if n = "Y" then some "2" else none

/-- An environment holding only `X=1`. -/
def testEnvPartial : String → Option String :=
  fun n => if n = "X" then some "1" else none

/-- A wide container populated with `{"X":"1","Y":"2"}`. -/
def testWide : EnvVariables TestKey := ⟨[("X", "1"), ("Y", "2")]⟩

/-- A wide container populated with `{"Y":"2"}` only. -/
def testWideMissing : EnvVariables TestKey := ⟨[("Y", "2")]⟩

/-- Secrets key-set `{() -> "OPENAI_KEY"}`. -/
def testSecConf : SecretsConfigEnum Unit where
  as_str := fun _ => "OPENAI_KEY"
  value_list := [()]

/-- Secrets key-set `{() -> "MISSING_KEY"}`. -/
def testSecConfMissing : SecretsConfigEnum Unit where
  as_str := fun _ => "MISSING_KEY"
  value_list := [()]

/-- Secrets-pipeline narrow key-set `{() -> "X"}`. -/
def testSecNarrow : SecretsConfigEnum Unit where
  as_str := fun _ => "X"
  value_list := [()]

/-- A populated `SecretValues` parent with `{"X":"1","Y":"2"}`. -/
def testSecWide : SecretValues TestKey := ⟨[("X", "1"), ("Y", "2")]⟩

/-- A `SecretValues` parent with `{"Y":"2"}` only. -/
def testSecWideMissing : SecretValues TestKey := ⟨[("Y", "2")]⟩

/-- Endpoint configuration with both required entries. -/
def testSecEnv : EnvVariables SecretsEnvConfigKey :=
  ⟨[("SECRETS_REGION", "us-west-2"), ("SECRETS_ID", "SID")]⟩

/-- Endpoint configuration lacking the region entry. -/
def testSecEnvNoRegion : EnvVariables SecretsEnvConfigKey :=
  ⟨[("SECRETS_ID", "SID")]⟩

/-- Endpoint configuration lacking the secret-id entry. -/
def testSecEnvNoId : EnvVariables SecretsEnvConfigKey :=
  ⟨[("SECRETS_REGION", "us-west-2")]⟩

/-- A fetch that returns a payload string. -/
def testFetch : String → String → SecretsFetchOutcome :=
  fun _ _ => .secretString "payload"

/-- A parse producing the flat map `{"OPENAI_KEY":"abc123"}`. -/
def testParse : String → Except String HMap :=
  fun _ => .ok [("OPENAI_KEY", "abc123")]

/-!
Claims C1-C10.
-/

/-- C1: for every key-set and every container returned without error by
`load_env` or by `clone_into`, `get` succeeds (returns `Ok`) at every key
of the key-set's `value_list()`. -/
theorem C1_completeness :
    (∀ (K : Type) (C : EnvConfigEnum K) (env : String → Option String)
        (c : EnvVariables K), load_env C env = .ok c →
        ∀ k ∈ C.value_list, ∃ v, EnvVariables.get C c k = .ok v)
    ∧ (∀ (K₁ K₂ : Type) (CC : EnvConfigEnum K₂) (wide : EnvVariables K₁)
        (c : EnvVariables K₂), wide.clone_into CC = .ok c →
        ∀ k ∈ CC.value_list, ∃ v, EnvVariables.get CC c k = .ok v) := by
  constructor
  · intro K C env c h k hk
    have hg := load_env_ok_get C env c h (C.as_str k)
    have hin : C.as_str k ∈ C.names := List.mem_map_of_mem C.as_str hk
    rw [if_pos hin] at hg
    have hsome := (load_env_ok_iff C env).mp ⟨c, h⟩ k hk
    obtain ⟨v, hv⟩ := Option.isSome_iff_exists.mp hsome
    refine ⟨v, ?_⟩
    unfold EnvVariables.get EnvVariables.get_raw
    rw [hg, hv]
  · intro K₁ K₂ CC wide c h k hk
    have hg := clone_into_env_ok_get CC wide c h (CC.as_str k)
    have hin : CC.as_str k ∈ CC.names := List.mem_map_of_mem CC.as_str hk
    rw [if_pos hin] at hg
    have hsome := (clone_into_env_ok_iff CC wide).mp ⟨c, h⟩ k hk
    obtain ⟨v, hv⟩ := Option.isSome_iff_exists.mp hsome
    refine ⟨v, ?_⟩
    unfold EnvVariables.get EnvVariables.get_raw
    rw [hg, hv]

/-- C1 witness: both parts at concrete inputs. -/
theorem C1_completeness_witness :
    (∃ v, EnvVariables.get testConfig ⟨[("Y", "2"), ("X", "1")]⟩ TestKey.A = .ok v)
    ∧ (∃ v, EnvVariables.get testNarrow ⟨[("X", "1")]⟩ () = .ok v) :=
  ⟨C1_completeness.1 TestKey testConfig testEnvFull ⟨[("Y", "2"), ("X", "1")]⟩
      rfl TestKey.A (by decide),
   C1_completeness.2 TestKey Unit testNarrow testWide ⟨[("X", "1")]⟩
      rfl () (by decide)⟩

/-- C2: projection (`clone_into`) succeeds iff every external name of the
narrow key-set is covered by the wide container, and otherwise fails with
the invalid-narrowing error naming the first missing name in declaration
order — for the `EnvVariables` family and the `SecretValues` family. -/
theorem C2_projection_subset_law :
    (∀ (K₁ K₂ : Type) (CC : EnvConfigEnum K₂) (wide : EnvVariables K₁),
      ((∃ c, wide.clone_into CC = .ok c) ↔
        ∀ k ∈ CC.value_list, (hmGet wide.map (CC.as_str k)).isSome)
      ∧ ∀ f₀, CC.value_list.find?
            (fun k => (hmGet wide.map (CC.as_str k)).isNone) = some f₀ →
          wide.clone_into CC =
            .error (.InvalidEnvConfig "EnvVariables::clone_into"
              "ENV variable missing" (CC.as_str f₀)))
    ∧ (∀ (K₁ K₂ : Type) (CC : SecretsConfigEnum K₂) (wide : SecretValues K₁),
      ((∃ c, wide.clone_into CC = .ok c) ↔
        ∀ k ∈ CC.value_list, (hmGet wide.map (CC.as_str k)).isSome)
      ∧ ∀ f₀, CC.value_list.find?
            (fun k => (hmGet wide.map (CC.as_str k)).isNone) = some f₀ →
          wide.clone_into CC =
            .error (.InvalidSecretsConfig "SecretValues::clone_into"
              "Secret key missing" (CC.as_str f₀))) := by
  constructor
  · intro K₁ K₂ CC wide
    exact ⟨clone_into_env_ok_iff CC wide,
      fun f₀ h => clone_into_env_find_error CC wide f₀ h⟩
  · intro K₁ K₂ CC wide
    exact ⟨clone_into_sec_ok_iff CC wide,
      fun f₀ h => clone_into_sec_find_error CC wide f₀ h⟩

/-- C2 witness: the error branch at concrete inputs for both families. -/
theorem C2_projection_subset_law_witness :
    testWideMissing.clone_into testNarrow =
      .error (.InvalidEnvConfig "EnvVariables::clone_into"
        "ENV variable missing" "X")
    ∧ testSecWideMissing.clone_into testSecNarrow =
      .error (.InvalidSecretsConfig "SecretValues::clone_into"
        "Secret key missing" "X") :=
  ⟨(C2_projection_subset_law.1 TestKey Unit testNarrow testWideMissing).2 () rfl,
   (C2_projection_subset_law.2 TestKey Unit testSecNarrow testSecWideMissing).2 () rfl⟩

/-- C3: if any key's external name is absent from the environment,
`load_env` fails with the missing-configuration error naming the first
missing key in declaration order, and returns no container at all. -/
theorem C3_load_env_all_or_nothing (K : Type) (C : EnvConfigEnum K)
    (env : String → Option String)
    (h : ∃ k ∈ C.value_list, env (C.as_str k) = none) :
    ∃ f₀, C.value_list.find? (fun k => (env (C.as_str k)).isNone) = some f₀ ∧
      load_env C env =
        .error (.MissingEnvVariableError "load_config" "" (C.as_str f₀)) ∧
      ∀ c, load_env C env ≠ .ok c := by
  obtain ⟨k, hk, hnone⟩ := h
  have hfind : (C.value_list.find? (fun k => (env (C.as_str k)).isNone)).isSome := by
    rw [List.find?_isSome]
    exact ⟨k, hk, by rw [hnone]; rfl⟩
  obtain ⟨f₀, hf₀⟩ := Option.isSome_iff_exists.mp hfind
  have herr := load_env_find_error C env f₀ hf₀
  exact ⟨f₀, hf₀, herr, fun c hc => by rw [herr] at hc; cases hc⟩

/-- C3 witness: key-set `{A -> "X", B -> "Y"}` against an environment
holding only `X`. -/
theorem C3_load_env_all_or_nothing_witness :
    ∃ f₀, testConfig.value_list.find?
        (fun k => (testEnvPartial (testConfig.as_str k)).isNone) = some f₀ ∧
      load_env testConfig testEnvPartial =
        .error (.MissingEnvVariableError "load_config" "" (testConfig.as_str f₀)) ∧
      ∀ c, load_env testConfig testEnvPartial ≠ .ok c :=
  C3_load_env_all_or_nothing TestKey testConfig testEnvPartial
    ⟨TestKey.B, by decide, rfl⟩

/-- C4: when projection succeeds, `get` on the projected container returns,
for every key of the narrow key-set, exactly the result of looking that
key's external name up in the wide container. -/
theorem C4_projection_fidelity (K₁ K₂ : Type) (CC : EnvConfigEnum K₂)
    (wide : EnvVariables K₁) (c : EnvVariables K₂)
    (h : wide.clone_into CC = .ok c) :
    ∀ k ∈ CC.value_list,
      EnvVariables.get CC c k = wide.get_raw (CC.as_str k) := by
  intro k hk
  have hg := clone_into_env_ok_get CC wide c h (CC.as_str k)
  have hin : CC.as_str k ∈ CC.names := List.mem_map_of_mem CC.as_str hk
  rw [if_pos hin] at hg
  unfold EnvVariables.get EnvVariables.get_raw
  rw [hg]

/-- C4 witness: concrete projection `{"X":"1","Y":"2"} -> {() -> "X"}`. -/
theorem C4_projection_fidelity_witness :
    EnvVariables.get testNarrow ⟨[("X", "1")]⟩ () = testWide.get_raw "X" :=
  C4_projection_fidelity TestKey Unit testNarrow testWide ⟨[("X", "1")]⟩
    rfl () (by decide)

/-- One more fixture: a secrets key-set over the two test keys. -/
def testSecConfig : SecretsConfigEnum TestKey where
  as_str := fun k => match k with | .A => "X" | .B => "Y"
  value_list := [.A, .B]

/-- C5: evaluation at the failing input. The parsed payload lacks the field
`MISSING_KEY`: `load_secrets` aborts with the `MissingSecretKey` error and
returns no container (all-or-nothing), but — against the claim and against
the error type's own field declaration in `from_secrets/errors.rs` — the
error constructed at the call site carries only the debug context and the
missing field name: neither the secret id `SID` nor the region `us-west-2`
occurs among its strings. -/
theorem C5_missing_key_eval :
    load_secrets testSecConfMissing testSecEnv testFetch testParse =
      .error (.MissingSecretKey "load_secrets" "MISSING_KEY")
    ∧ (GenericServerError.MissingSecretKey "load_secrets" "MISSING_KEY").strings
        = ["load_secrets", "MISSING_KEY"]
    ∧ "SID" ∉ (GenericServerError.MissingSecretKey "load_secrets" "MISSING_KEY").strings
    ∧ "us-west-2" ∉ (GenericServerError.MissingSecretKey "load_secrets" "MISSING_KEY").strings
    ∧ ∀ c, load_secrets testSecConfMissing testSecEnv testFetch testParse ≠ .ok c := by
  refine ⟨rfl, rfl, by decide, by decide, ?_⟩
  intro c hc
  cases hc

/-- C6 counterexample: with the region entry absent from the supplied
endpoint configuration, `load_secrets` fails with the internal-consistency
`CriticalError` kind propagated unchanged from `EnvVariables::get`, not
with the missing-configuration kind the claim states. -/
theorem C6_counterexample :
    load_secrets testSecConf testSecEnvNoRegion testFetch testParse =
      .error (.CriticalError "EnvVariables.get_raw" envGetRawMsg SECRETS_REGION)
    ∧ (GenericServerError.CriticalError "EnvVariables.get_raw" envGetRawMsg
        SECRETS_REGION).kind = ErrorKind.critical
    ∧ ErrorKind.critical ≠ ErrorKind.missingEnvVariable :=
  ⟨rfl, rfl, by decide⟩

/-- C6 amended: resolving the region and the secret id are each required
lookups that fail the whole load when the entry is absent from the supplied
configuration container — but the error is the container's
internal-consistency `CriticalError` (from `EnvVariables::get`), not a
missing-configuration error. -/
theorem C6_amended_region_id_critical (K : Type) (C : SecretsConfigEnum K)
    (env : EnvVariables SecretsEnvConfigKey)
    (fetch : String → String → SecretsFetchOutcome)
    (parse : String → Except String HMap) :
    (hmGet env.map SECRETS_REGION = none →
      load_secrets C env fetch parse =
        .error (.CriticalError "EnvVariables.get_raw" envGetRawMsg SECRETS_REGION))
    ∧ (∀ r, hmGet env.map SECRETS_REGION = some r →
        hmGet env.map SECRETS_ID = none →
        load_secrets C env fetch parse =
          .error (.CriticalError "EnvVariables.get_raw" envGetRawMsg SECRETS_ID)) :=
  ⟨fun h => load_secrets_region_missing C env fetch parse h,
   fun r hr h => load_secrets_id_missing C env fetch parse r hr h⟩

/-- C6 amended witness: both lookups at concrete endpoint configurations. -/
theorem C6_amended_region_id_critical_witness :
    load_secrets testSecConf testSecEnvNoRegion testFetch testParse =
      .error (.CriticalError "EnvVariables.get_raw" envGetRawMsg SECRETS_REGION)
    ∧ load_secrets testSecConf testSecEnvNoId testFetch testParse =
      .error (.CriticalError "EnvVariables.get_raw" envGetRawMsg SECRETS_ID) :=
  ⟨(C6_amended_region_id_critical Unit testSecConf testSecEnvNoRegion
      testFetch testParse).1 rfl,
   (C6_amended_region_id_critical Unit testSecConf testSecEnvNoId
      testFetch testParse).2 "us-west-2" rfl rfl⟩

theorem env_get_error_shape {K : Type} (C : EnvConfigEnum K)
    (c : EnvVariables K) (k : K) (e : GenericServerError)
    (h : EnvVariables.get C c k = .error e) :
    e = .CriticalError "EnvVariables.get_raw" envGetRawMsg (C.as_str k) := by
  unfold EnvVariables.get EnvVariables.get_raw at h
  cases hg : hmGet c.map (C.as_str k) with
  | some v => rw [hg] at h; cases h
  | none =>
    rw [hg] at h
    cases h
    rfl

/-- C7: the three code paths carry pairwise distinct error kinds: a lookup
miss inside `get` is the internal-consistency `CriticalError`; a miss in
`load_env` is `MissingEnvVariableError`; a miss in `clone_into` is
`InvalidEnvConfig`. -/
theorem C7_error_kind_separation :
    (∀ (K : Type) (C : EnvConfigEnum K) (c : EnvVariables K) (k : K)
        (e : GenericServerError),
      EnvVariables.get C c k = .error e → e.kind = .critical)
    ∧ (∀ (K : Type) (C : EnvConfigEnum K) (env : String → Option String)
        (e : GenericServerError),
      load_env C env = .error e → e.kind = .missingEnvVariable)
    ∧ (∀ (K₁ K₂ : Type) (CC : EnvConfigEnum K₂) (wide : EnvVariables K₁)
        (e : GenericServerError),
      wide.clone_into CC = .error e → e.kind = .invalidEnvConfig)
    ∧ ErrorKind.critical ≠ ErrorKind.missingEnvVariable
    ∧ ErrorKind.critical ≠ ErrorKind.invalidEnvConfig
    ∧ ErrorKind.missingEnvVariable ≠ ErrorKind.invalidEnvConfig := by
  refine ⟨?_, ?_, ?_, by decide, by decide, by decide⟩
  · intro K C c k e h
    rw [env_get_error_shape C c k e h]
    rfl
  · intro K C env e h
    obtain ⟨f, _, _, he⟩ := load_env_error_shape C env e h
    rw [he]
    rfl
  · intro K₁ K₂ CC wide e h
    obtain ⟨f, _, _, he⟩ := clone_into_env_error_shape CC wide e h
    rw [he]
    rfl

/-- C7 witness: the three erroring paths at concrete inputs. -/
theorem C7_error_kind_separation_witness :
    (GenericServerError.CriticalError "EnvVariables.get_raw" envGetRawMsg
      "X").kind = ErrorKind.critical
    ∧ (GenericServerError.MissingEnvVariableError "load_config" "" "Y").kind
        = ErrorKind.missingEnvVariable
    ∧ (GenericServerError.InvalidEnvConfig "EnvVariables::clone_into"
        "ENV variable missing" "X").kind = ErrorKind.invalidEnvConfig :=
  ⟨C7_error_kind_separation.1 TestKey testConfig testWideMissing TestKey.A _ rfl,
   C7_error_kind_separation.2.1 TestKey testConfig testEnvPartial _ rfl,
   C7_error_kind_separation.2.2.1 TestKey Unit testNarrow testWideMissing _ rfl⟩

/-- C8: the empty key-set loads to the empty container whatever the
environment holds, and every container projects onto the empty key-set,
yielding the empty container. -/
theorem C8_empty_key_set :
    (∀ env : String → Option String, load_env emptyConfig env = .ok ⟨[]⟩)
    ∧ (∀ (K : Type) (wide : EnvVariables K),
        wide.clone_into emptyConfig = .ok ⟨[]⟩) :=
  ⟨fun _ => rfl, fun _ _ => rfl⟩

/-- C9: a container returned without error by `load_env`, `load_secrets`
or `clone_into` has an underlying map whose key set is exactly the external
names of its key-set's `value_list()`. -/
theorem C9_exact_key_set :
    (∀ (K : Type) (C : EnvConfigEnum K) (env : String → Option String)
        (c : EnvVariables K), load_env C env = .ok c →
        ∀ name, (hmGet c.map name).isSome ↔ name ∈ C.names)
    ∧ (∀ (K : Type) (C : SecretsConfigEnum K)
        (env : EnvVariables SecretsEnvConfigKey)
        (fetch : String → String → SecretsFetchOutcome)
        (parse : String → Except String HMap) (c : SecretValues K),
        load_secrets C env fetch parse = .ok c →
        ∀ name, (hmGet c.map name).isSome ↔ name ∈ C.names)
    ∧ (∀ (K₁ K₂ : Type) (CC : EnvConfigEnum K₂) (wide : EnvVariables K₁)
        (c : EnvVariables K₂), wide.clone_into CC = .ok c →
        ∀ name, (hmGet c.map name).isSome ↔ name ∈ CC.names) := by
  refine ⟨?_, ?_, ?_⟩
  · intro K C env c h name
    have hg := load_env_ok_get C env c h name
    constructor
    · intro hs
      by_contra hnot
      rw [hg, if_neg hnot] at hs
      cases hs
    · intro hmem
      obtain ⟨k, hk, hkn⟩ := List.mem_map.mp hmem
      have hsome := (load_env_ok_iff C env).mp ⟨c, h⟩ k hk
      rw [hg, if_pos hmem, ← hkn]
      exact hsome
  · intro K C env fetch parse c h name
    obtain ⟨json, m', hm', hc⟩ := load_secrets_ok_inv C env fetch parse c h
    subst hc
    rw [loadSecretsLoop_eq_fillLoop] at hm'
    have hg := fillLoop_ok_get C.as_str (fun n => hmGet json n) _ _ _ _ hm' name
    constructor
    · intro hs
      by_contra hnot
      have hnot' : name ∉ List.map C.as_str C.value_list := hnot
      rw [hg, if_neg hnot'] at hs
      cases hs
    · intro hmem
      have hmem' : name ∈ List.map C.as_str C.value_list := hmem
      obtain ⟨k, hk, hkn⟩ := List.mem_map.mp hmem'
      have hall := (fillLoop_isOk_iff C.as_str (fun n => hmGet json n) _
        C.value_list []).mp ⟨m', hm'⟩
      have hsome := hall k hk
      rw [hg, if_pos hmem', ← hkn]
      exact hsome
  · intro K₁ K₂ CC wide c h name
    have hg := clone_into_env_ok_get CC wide c h name
    constructor
    · intro hs
      by_contra hnot
      rw [hg, if_neg hnot] at hs
      cases hs
    · intro hmem
      obtain ⟨k, hk, hkn⟩ := List.mem_map.mp hmem
      have hsome := (clone_into_env_ok_iff CC wide).mp ⟨c, h⟩ k hk
      rw [hg, if_pos hmem, ← hkn]
      exact hsome

/-- C9 witness: the three producers at concrete inputs. -/
theorem C9_exact_key_set_witness :
    ((hmGet (⟨[("Y", "2"), ("X", "1")]⟩ : EnvVariables TestKey).map "X").isSome
      ↔ "X" ∈ testConfig.names)
    ∧ ((hmGet (⟨[("OPENAI_KEY", "abc123")]⟩ : SecretValues Unit).map
        "OPENAI_KEY").isSome ↔ "OPENAI_KEY" ∈ testSecConf.names)
    ∧ ((hmGet (⟨[("X", "1")]⟩ : EnvVariables Unit).map "Y").isSome
      ↔ "Y" ∈ testNarrow.names) :=
  ⟨C9_exact_key_set.1 TestKey testConfig testEnvFull
      ⟨[("Y", "2"), ("X", "1")]⟩ rfl "X",
   C9_exact_key_set.2.1 Unit testSecConf testSecEnv testFetch testParse
      ⟨[("OPENAI_KEY", "abc123")]⟩ rfl "OPENAI_KEY",
   C9_exact_key_set.2.2 TestKey Unit testNarrow testWide
      ⟨[("X", "1")]⟩ rfl "Y"⟩

/-- C10: projecting a container onto its own key-set, when every external
name is present, succeeds and is an identity up to `get` — for both the
`EnvVariables` and the `SecretValues` families. -/
theorem C10_projection_identity :
    (∀ (K : Type) (C : EnvConfigEnum K) (c : EnvVariables K),
      (∀ k ∈ C.value_list, (hmGet c.map (C.as_str k)).isSome) →
      ∃ c', c.clone_into C = .ok c' ∧
        ∀ k ∈ C.value_list,
          EnvVariables.get C c' k = EnvVariables.get C c k)
    ∧ (∀ (K : Type) (C : SecretsConfigEnum K) (c : SecretValues K),
      (∀ k ∈ C.value_list, (hmGet c.map (C.as_str k)).isSome) →
      ∃ c', c.clone_into C = .ok c' ∧
        ∀ k ∈ C.value_list,
          SecretValues.get C c' k = SecretValues.get C c k) := by
  constructor
  · intro K C c hall
    obtain ⟨c', hc'⟩ := (clone_into_env_ok_iff C c).mpr hall
    refine ⟨c', hc', ?_⟩
    intro k hk
    have hg := clone_into_env_ok_get C c c' hc' (C.as_str k)
    have hin : C.as_str k ∈ C.names := List.mem_map_of_mem C.as_str hk
    rw [if_pos hin] at hg
    unfold EnvVariables.get EnvVariables.get_raw
    rw [hg]
  · intro K C c hall
    obtain ⟨c', hc'⟩ := (clone_into_sec_ok_iff C c).mpr hall
    refine ⟨c', hc', ?_⟩
    intro k hk
    have hg := clone_into_sec_ok_get C c c' hc' (C.as_str k)
    have hin : C.as_str k ∈ C.names := List.mem_map_of_mem C.as_str hk
    rw [if_pos hin] at hg
    unfold SecretValues.get SecretValues.get_raw
    rw [hg]

/-- C10 witness: self-projection of fully-populated two-key containers. -/
theorem C10_projection_identity_witness :
    (∃ c', testWide.clone_into testConfig = .ok c' ∧
      ∀ k ∈ testConfig.value_list,
        EnvVariables.get testConfig c' k =
          EnvVariables.get testConfig testWide k)
    ∧ (∃ c', testSecWide.clone_into testSecConfig = .ok c' ∧
      ∀ k ∈ testSecConfig.value_list,
        SecretValues.get testSecConfig c' k =
          SecretValues.get testSecConfig testSecWide k) :=
  ⟨C10_projection_identity.1 TestKey testConfig testWide (by decide),
   C10_projection_identity.2 TestKey testSecConfig testSecWide (by decide)⟩

end EnvConfigModel
